import Mathlib

/-!
Verification development for the acu-master repository.

Part 1 models the Wavefront-style mesh text loader (`OBJLoader.parse` and
`addFaceVertices`): numbers are modelled as `Option ℚ`, where `none` stands
for the JavaScript non-number results (`NaN` from `parseFloat`, `undefined`
from an out-of-range array read); the regular expressions of the source are
translated into equivalent deterministic matchers (each regex is anchored
with `^`, every group is a maximal run of a character class followed by a
mandatory separator, so no backtracking can change the outcome).

Part 2 models the orbit camera controller (`OrbitControls`): JavaScript
doubles are modelled as real numbers, `Math.PI` as `Real.pi`.
-/

namespace OBJ

/-- Whitespace characters recognised by the JavaScript `\s` class and
`String.prototype.trim` (ASCII part, sufficient for line-oriented input). -/
def isJsSpace (c : Char) : Bool :=
  c = ' ' || c = '\t' || c = '\n' || c = '\r' || c = '\x0b' || c = '\x0c'

/-- Characters of the bracket class `[\d|\.|\+|\-|e|E]` used by the
vertex/normal/uv patterns (the pipes inside the class are literal). -/
def isClassChar (c : Char) : Bool :=
  c.isDigit || c = '|' || c = '.' || c = '+' || c = '-' || c = 'e' || c = 'E'

/-- Model of `String.prototype.trim`. -/
def trimJs (cs : List Char) : List Char :=
  ((cs.dropWhile isJsSpace).reverse.dropWhile isJsSpace).reverse

/-- Model of `text.split('\n')`. -/
def splitNl : List Char → List (List Char)
  | [] => [[]]
  | c :: cs =>
    let r := splitNl cs
    if c = '\n' then [] :: r
    else
      match r with
      | [] => [[c]]
      | h :: t => (c :: h) :: t

/-- Numeric value of a digit run. -/
def digitsVal (ds : List Char) : Nat :=
  ds.foldl (fun a c => a * 10 + (c.toNat - '0'.toNat)) 0

/-- Model of `parseInt` on a string of shape `-?\d+` (the only shape the
face regex can produce). -/
def strToInt : List Char → ℤ
  | '-' :: ds => -(digitsVal ds : ℤ)
  | ds => (digitsVal ds : ℤ)

/-- Exponent part of `parseFloat`: `e`/`E` followed by an optional sign and
digits; if no digit follows, the exponent part is not consumed (value 0). -/
def expVal (cs : List Char) : ℤ :=
  let p : ℤ × List Char :=
    match cs with
    | '-' :: r => (-1, r)
    | '+' :: r => (1, r)
    | r => (1, r)
  let ds := p.2.takeWhile Char.isDigit
  if ds.isEmpty then 0 else p.1 * (digitsVal ds : ℤ)

/-- Model of JavaScript `parseFloat`: leading whitespace, optional sign,
digits with optional fraction, optional exponent; parsing stops at the
first character that does not fit, and yields `none` (NaN) when no mantissa
digit was read. -/
def jsParseFloat (cs : List Char) : Option ℚ :=
  let cs1 := cs.dropWhile isJsSpace
  let sp : ℤ × List Char :=
    match cs1 with
    | '-' :: r => (-1, r)
    | '+' :: r => (1, r)
    | r => (1, r)
  let ip := sp.2.takeWhile Char.isDigit
  let rest1 := sp.2.dropWhile Char.isDigit
  let fp : List Char × List Char :=
    match rest1 with
    | '.' :: r => (r.takeWhile Char.isDigit, r.dropWhile Char.isDigit)
    | r => ([], r)
  if ip.isEmpty && fp.1.isEmpty then none
  else
    let ex : ℤ :=
      match fp.2 with
      | 'e' :: r => expVal r
      | 'E' :: r => expVal r
      | _ => 0
    -- sign * (ipart + fpart / 10 ^ fdigits) * 10 ^ exponent, written as a
    -- single integer fraction
    let n0 : ℤ := (digitsVal ip * 10 ^ fp.1.length + digitsVal fp.1 : ℕ)
    if 0 ≤ ex then
      some (mkRat (sp.1 * n0 * 10 ^ ex.toNat) (10 ^ fp.1.length))
    else
      some (mkRat (sp.1 * n0) (10 ^ (fp.1.length + (-ex).toNat)))

/-- Maximal nonempty run of class characters (one regex group `([...]+)`). -/
def classRun (cs : List Char) : Option (List Char × List Char) :=
  let t := cs.takeWhile isClassChar
  if t.isEmpty then none else some (t, cs.dropWhile isClassChar)

/-- Mandatory whitespace `\s+`. -/
def wsRun (cs : List Char) : Option (List Char) :=
  let t := cs.takeWhile isJsSpace
  if t.isEmpty then none else some (cs.dropWhile isJsSpace)

/-- `n` repetitions of `\s+([...]+)`; the text after the last group is
unconstrained (the patterns carry no end anchor). -/
def wsGroups : Nat → List Char → Option (List (List Char))
  | 0, _ => some []
  | n + 1, cs => do
    let cs1 ← wsRun cs
    let (g, cs2) ← classRun cs1
    let gs ← wsGroups n cs2
    some (g :: gs)

/-- Matcher for `vertexPattern = /^v\s+([...]+)\s+([...]+)\s+([...]+)/`. -/
def matchVertexLine : List Char → Option (List (List Char))
  | 'v' :: rest => wsGroups 3 rest
  | _ => none

/-- Matcher for `normalPattern = /^vn\s+([...]+)\s+([...]+)\s+([...]+)/`. -/
def matchNormalLine : List Char → Option (List (List Char))
  | 'v' :: 'n' :: rest => wsGroups 3 rest
  | _ => none

/-- Matcher for `uvPattern = /^vt\s+([...]+)\s+([...]+)/`. -/
def matchUVLine : List Char → Option (List (List Char))
  | 'v' :: 't' :: rest => wsGroups 2 rest
  | _ => none

/-- One face-index group `(-?\d+)`. -/
def intGroup : List Char → Option (List Char × List Char)
  | '-' :: r =>
    let d := r.takeWhile Char.isDigit
    if d.isEmpty then none else some ('-' :: d, r.dropWhile Char.isDigit)
  | cs =>
    let d := cs.takeWhile Char.isDigit
    if d.isEmpty then none else some (d, cs.dropWhile Char.isDigit)

/-- One `(-?\d+)\/(-?\d+)\/(-?\d+)` triplet. -/
def tripletGroup (cs : List Char) : Option ((List Char × List Char × List Char) × List Char) := do
  let (a, cs1) ← intGroup cs
  match cs1 with
  | '/' :: cs2 => do
    let (b, cs3) ← intGroup cs2
    match cs3 with
    | '/' :: cs4 => do
      let (c, cs5) ← intGroup cs4
      some ((a, b, c), cs5)
    | _ => none
  | _ => none

/-- `\s+` followed by a triplet. -/
def wsTriplet (cs : List Char) : Option ((List Char × List Char × List Char) × List Char) := do
  let cs1 ← wsRun cs
  tripletGroup cs1

/-- Matcher for `facePattern`: `^f` and three mandatory triplets with an
optional fourth (`(?:\s+...)?`); trailing text is unconstrained. -/
def matchFaceLine : List Char → Option (List (List Char × List Char × List Char))
  | 'f' :: rest => do
    let (t1, r1) ← wsTriplet rest
    let (t2, r2) ← wsTriplet r1
    let (t3, r3) ← wsTriplet r2
    match wsTriplet r3 with
    | some (t4, _) => some [t1, t2, t3, t4]
    | none => some [t1, t2, t3]
  | _ => none

/-- Array read `pool[i]` for an `ℤ` index: negative or out-of-range reads
give `undefined`, modelled as `none`. -/
def lookupQ (pool : List (Option ℚ)) (i : ℤ) : Option ℚ :=
  if 0 ≤ i then pool.getD i.toNat none else none

/-- State of the running `OBJLoader.parse` loop: per-object accumulator as
in `ParsedObject`. -/
structure ParsedObject where
  vertices : List (Option ℚ)
  normals : List (Option ℚ)
  uvs : List (Option ℚ)
  name : String
  material : String
  deriving DecidableEq

/-- Model of `createNewObject`. -/
def createNewObject : ParsedObject :=
  { vertices := [], normals := [], uvs := [], name := "", material := "" }

/-- State carried across lines: finished objects, the current object, and
the three global pools. -/
structure PState where
  objects : List ParsedObject
  current : ParsedObject
  vertices : List (Option ℚ)
  normals : List (Option ℚ)
  uvs : List (Option ℚ)

def initPState : PState :=
  { objects := [], current := createNewObject, vertices := [], normals := [], uvs := [] }

/-- Model of `addFaceVertices`: each face corner is resolved against the
global pools; uv (resp. normal) data is appended only when the global uv
(resp. normal) pool is nonempty, with no range or sign check on indices. -/
def addFaceVertices (obj : ParsedObject)
    (triplets : List (List Char × List Char × List Char))
    (vertices normals uvs : List (Option ℚ)) : ParsedObject :=
  let corners := triplets.map fun t =>
    (strToInt t.1 - 1, strToInt t.2.1 - 1, strToInt t.2.2 - 1)
  { obj with
    vertices := obj.vertices ++ corners.flatMap (fun c =>
      [lookupQ vertices (c.1 * 3), lookupQ vertices (c.1 * 3 + 1),
       lookupQ vertices (c.1 * 3 + 2)])
    uvs :=
      if uvs.length > 0 then
        obj.uvs ++ corners.flatMap (fun c =>
          [lookupQ uvs (c.2.1 * 2), lookupQ uvs (c.2.1 * 2 + 1)])
      else obj.uvs
    normals :=
      if normals.length > 0 then
        obj.normals ++ corners.flatMap (fun c =>
          [lookupQ normals (c.2.2 * 3), lookupQ normals (c.2.2 * 3 + 1),
           lookupQ normals (c.2.2 * 3 + 2)])
      else obj.normals }

/-- One iteration of the line loop in `parse`: trim, skip blank and `#`
lines, then try the four patterns in source order, then the `o ` and
`usemtl ` prefixes. -/
def processLine (st : PState) (raw : List Char) : PState :=
  let line := trimJs raw
  if line.length = 0 ∨ line.head? = some '#' then st
  else
    match matchVertexLine line, matchNormalLine line, matchUVLine line,
          matchFaceLine line with
    | some g, _, _, _ =>
      { st with vertices := st.vertices ++ g.map jsParseFloat }
    | none, some g, _, _ =>
      { st with normals := st.normals ++ g.map jsParseFloat }
    | none, none, some g, _ =>
      { st with uvs := st.uvs ++ g.map jsParseFloat }
    | none, none, none, some ts =>
      { st with current := addFaceVertices st.current ts st.vertices st.normals st.uvs }
    | none, none, none, none =>
      match line with
      | 'o' :: ' ' :: rest =>
        let objs :=
          if st.current.vertices.length > 0 then st.objects ++ [st.current]
          else st.objects
        { st with objects := objs,
                  current := { createNewObject with name := String.mk (trimJs rest) } }
      | 'u' :: 's' :: 'e' :: 'm' :: 't' :: 'l' :: ' ' :: rest =>
        { st with current := { st.current with material := String.mk (trimJs rest) } }
      | _ => st

/-- A drawable mesh object as assembled by `createGroupFromObjects`: an
empty attribute list models an absent attribute. -/
structure MeshObj where
  name : String
  material : String
  position : List (Option ℚ)
  normal : List (Option ℚ)
  uv : List (Option ℚ)
  deriving DecidableEq

/-- Model of `OBJLoader.parse` followed by `createGroupFromObjects`:
returns the meshes of the resulting group in order. -/
def objParse (text : String) : List MeshObj :=
  let st := (splitNl text.toList).foldl processLine initPState
  let objs :=
    if st.current.vertices.length > 0 then st.objects ++ [st.current]
    else st.objects
  objs.map fun o =>
    { name := o.name, material := o.material,
      position := o.vertices, normal := o.normals, uv := o.uvs }

end OBJ

namespace OBJ

/-- Parse-loop invariant: every finished object holds at least one vertex
datum (objects are flushed only under the `vertices.length > 0` guard). -/
def objectsNonempty (st : PState) : Prop :=
  ∀ o ∈ st.objects, o.vertices ≠ []

end OBJ

namespace Orbit

noncomputable section

open Real

/-- 3-component vector of the geometric collaborator (`THREE.Vector3`),
with JavaScript doubles modelled as real numbers. -/
structure Vec3 where
  x : ℝ
  y : ℝ
  z : ℝ

/-- Quaternion (`THREE.Quaternion`), components in (x, y, z, w) order. -/
structure Quat where
  x : ℝ
  y : ℝ
  z : ℝ
  w : ℝ

/-- Spherical coordinates (`THREE.Spherical`), fields in source order. -/
structure Sph where
  radius : ℝ
  phi : ℝ
  theta : ℝ

def vadd (a b : Vec3) : Vec3 := ⟨a.x + b.x, a.y + b.y, a.z + b.z⟩

def vsub (a b : Vec3) : Vec3 := ⟨a.x - b.x, a.y - b.y, a.z - b.z⟩

def vsmul (s : ℝ) (a : Vec3) : Vec3 := ⟨s * a.x, s * a.y, s * a.z⟩

def vdot (a b : Vec3) : ℝ := a.x * b.x + a.y * b.y + a.z * b.z

/-- `Vector3.cross`. -/
def vcross (a b : Vec3) : Vec3 :=
  ⟨a.y * b.z - a.z * b.y, a.z * b.x - a.x * b.z, a.x * b.y - a.y * b.x⟩

def vlengthSq (a : Vec3) : ℝ := a.x * a.x + a.y * a.y + a.z * a.z

def vlength (a : Vec3) : ℝ := Real.sqrt (a.x * a.x + a.y * a.y + a.z * a.z)

/-- `Vector3.distanceToSquared`. -/
def vdistSq (a b : Vec3) : ℝ :=
  (a.x - b.x) * (a.x - b.x) + (a.y - b.y) * (a.y - b.y) + (a.z - b.z) * (a.z - b.z)

/-- `Vector3.normalize`: divide by the length, or by 1 when the length is 0
(the JavaScript `this.length() || 1`). -/
def vnormalize (a : Vec3) : Vec3 :=
  vsmul (1 / (if vlength a = 0 then 1 else vlength a)) a

/-- `Vector3.applyQuaternion`. -/
def vapplyQuat (v : Vec3) (q : Quat) : Vec3 :=
  let tx := 2 * (q.y * v.z - q.z * v.y)
  let ty := 2 * (q.z * v.x - q.x * v.z)
  let tz := 2 * (q.x * v.y - q.y * v.x)
  ⟨v.x + q.w * tx + (q.y * tz - q.z * ty),
   v.y + q.w * ty + (q.z * tx - q.x * tz),
   v.z + q.w * tz + (q.x * ty - q.y * tx)⟩

/-- `Quaternion.conjugate`; `Quaternion.invert` on a unit quaternion is
exactly this. -/
def qconj (q : Quat) : Quat := ⟨-q.x, -q.y, -q.z, q.w⟩

def qdot (a b : Quat) : ℝ := a.x * b.x + a.y * b.y + a.z * b.z + a.w * b.w

def qlength (q : Quat) : ℝ :=
  Real.sqrt (q.x * q.x + q.y * q.y + q.z * q.z + q.w * q.w)

/-- `Quaternion.normalize`: identity quaternion when the length is 0. -/
def qnormalize (q : Quat) : Quat :=
  let l := qlength q
  if l = 0 then ⟨0, 0, 0, 1⟩
  else ⟨q.x * (1 / l), q.y * (1 / l), q.z * (1 / l), q.w * (1 / l)⟩

/-- `Number.EPSILON`. -/
def numberEPS : ℝ := (2 : ℝ) ^ (-52 : ℤ)

/-- `Quaternion.setFromUnitVectors`. -/
def quatFromUnitVectors (vFrom vTo : Vec3) : Quat :=
  let r := vdot vFrom vTo + 1
  if r < numberEPS then
    (if |vFrom.x| > |vFrom.z| then qnormalize ⟨-vFrom.y, vFrom.x, 0, 0⟩
     else qnormalize ⟨0, -vFrom.z, vFrom.y, 0⟩)
  else
    qnormalize ⟨vFrom.y * vTo.z - vFrom.z * vTo.y,
                vFrom.z * vTo.x - vFrom.x * vTo.z,
                vFrom.x * vTo.y - vFrom.y * vTo.x, r⟩

/-- JavaScript `Math.atan2`. -/
def atan2 (y x : ℝ) : ℝ :=
  if 0 < x then Real.arctan (y / x)
  else if x < 0 then
    (if 0 ≤ y then Real.arctan (y / x) + Real.pi else Real.arctan (y / x) - Real.pi)
  else
    (if 0 < y then Real.pi / 2 else if y < 0 then -(Real.pi / 2) else 0)

/-- `MathUtils.clamp( value, min, max )`. -/
def clampV (v lo hi : ℝ) : ℝ := max lo (min hi v)

/-- `Spherical.setFromVector3` (via `setFromCartesianCoords`). -/
def sphFromVec3 (v : Vec3) : Sph :=
  let r := Real.sqrt (v.x * v.x + v.y * v.y + v.z * v.z)
  if r = 0 then ⟨r, 0, 0⟩
  else ⟨r, Real.arccos (clampV (v.y / r) (-1) 1), atan2 v.x v.z⟩

/-- `Vector3.setFromSpherical` (via `setFromSphericalCoords`). -/
def vecFromSph (s : Sph) : Vec3 :=
  let sinPhiRadius := Real.sin s.phi * s.radius
  ⟨sinPhiRadius * Real.sin s.theta, Real.cos s.phi * s.radius,
   sinPhiRadius * Real.cos s.theta⟩

/-- The `EPS` constant of `Spherical.makeSafe`. -/
def makeSafeEPS : ℝ := 0.000001

/-- `Spherical.makeSafe`: nudge the polar angle away from the poles. -/
def makeSafePhi (phi : ℝ) : ℝ :=
  max makeSafeEPS (min (Real.pi - makeSafeEPS) phi)

/-- Quaternion from the rotation matrix with columns x, y, z
(`Quaternion.setFromRotationMatrix`): `m11 = x.x`, `m12 = y.x`, `m13 = z.x`,
`m21 = x.y`, `m22 = y.y`, `m23 = z.y`, `m31 = x.z`, `m32 = y.z`, `m33 = z.z`. -/
def quatFromColumns (x y z : Vec3) : Quat :=
  let m11 := x.x; let m12 := y.x; let m13 := z.x
  let m21 := x.y; let m22 := y.y; let m23 := z.y
  let m31 := x.z; let m32 := y.z; let m33 := z.z
  let trace := m11 + m22 + m33
  if trace > 0 then
    let s := 0.5 / Real.sqrt (trace + 1)
    ⟨(m32 - m23) * s, (m13 - m31) * s, (m21 - m12) * s, 0.25 / s⟩
  else if m11 > m22 ∧ m11 > m33 then
    let s := 2 * Real.sqrt (1 + m11 - m22 - m33)
    ⟨0.25 * s, (m12 + m21) / s, (m13 + m31) / s, (m32 - m23) / s⟩
  else if m22 > m33 then
    let s := 2 * Real.sqrt (1 + m22 - m11 - m33)
    ⟨(m12 + m21) / s, 0.25 * s, (m23 + m32) / s, (m13 - m31) / s⟩
  else
    let s := 2 * Real.sqrt (1 + m33 - m11 - m22)
    ⟨(m13 + m31) / s, (m23 + m32) / s, 0.25 * s, (m21 - m12) / s⟩

/-- `Object3D.lookAt` for a camera (`Matrix4.lookAt(eye, target, up)`
followed by `setFromRotationMatrix`), including the degenerate-direction
fallbacks of the source. -/
def lookAtQuat (eye target up : Vec3) : Quat :=
  let z0 := vsub eye target
  let z1 := if vlengthSq z0 = 0 then { z0 with z := 1 } else z0
  let z2 := vnormalize z1
  let x0 := vcross up z2
  let p :=
    if vlengthSq x0 = 0 then
      let z3 := if |up.z| = 1 then { z2 with x := z2.x + 0.0001 }
                else { z2 with z := z2.z + 0.0001 }
      let z4 := vnormalize z3
      (vcross up z4, z4)
    else (x0, z2)
  let x := vnormalize p.1
  let y := vcross p.2 x
  quatFromColumns x y p.2

/-- Camera kind: the TypeScript type of `object` is
`PerspectiveCamera | OrthographicCamera`. -/
inductive CameraKind
  | perspective
  | orthographic
  deriving DecidableEq

/-- The camera fields consumed or mutated by the controller. -/
structure Camera where
  kind : CameraKind
  position : Vec3
  up : Vec3
  quaternion : Quat
  zoom : ℝ

/-- The gesture interaction modes (the `STATE` enumeration). -/
inductive GState
  | NONE
  | ROTATE
  | DOLLY
  | PAN
  | TOUCH_ROTATE
  | TOUCH_PAN
  | TOUCH_DOLLY_PAN
  | TOUCH_DOLLY_ROTATE
  deriving DecidableEq

/-- Notifications dispatched by the controller. -/
inductive Evt
  | startE
  | changeE
  | endE
  deriving DecidableEq

/-- The `OrbitControls` instance state.  `Option ℝ` limits model the
infinite defaults (`maxDistance`, `maxZoom`, the azimuth-angle pair);
`capturing` models the DOM pointer capture plus the document-level
move/up listeners as an explicit boolean; `lastPosition`/`lastQuaternion`
are the instance fields of those names, which `update` shadows with fresh
locals (see `update`). -/
structure Controls where
  object : Camera
  target : Vec3
  enabled : Bool
  minDistance : ℝ
  maxDistance : Option ℝ
  minZoom : ℝ
  maxZoom : Option ℝ
  minPolarAngle : ℝ
  maxPolarAngle : ℝ
  minAzimuthAngle : Option ℝ
  maxAzimuthAngle : Option ℝ
  enableDamping : Bool
  dampingFactor : ℝ
  enableZoom : Bool
  zoomSpeed : ℝ
  enableRotate : Bool
  rotateSpeed : ℝ
  enablePan : Bool
  panSpeed : ℝ
  autoRotate : Bool
  autoRotateSpeed : ℝ
  spherical : Sph
  sphericalDelta : Sph
  scale : ℝ
  panOffset : Vec3
  zoomChanged : Bool
  pointers : List Nat
  pointerPositions : List (Nat × ℝ × ℝ)
  state : GState
  capturing : Bool
  target0 : Vec3
  position0 : Vec3
  zoom0 : ℝ
  lastPosition : Vec3
  lastQuaternion : Quat

/-- The `EPS` field of the controller (change-detection threshold). -/
def controlsEPS : ℝ := 0.000001

/-- `getAutoRotationAngle`. -/
def getAutoRotationAngle (c : Controls) : ℝ :=
  2 * Real.pi / 60 / 60 * c.autoRotateSpeed

/-- `getZoomScale` = `Math.pow(0.95, zoomSpeed)`. -/
def getZoomScale (c : Controls) : ℝ := Real.rpow 0.95 c.zoomSpeed

/-- `rotateLeft`. -/
def rotateLeft (c : Controls) (angle : ℝ) : Controls :=
  { c with sphericalDelta :=
      { c.sphericalDelta with theta := c.sphericalDelta.theta - angle } }

/-- `rotateUp`. -/
def rotateUp (c : Controls) (angle : ℝ) : Controls :=
  { c with sphericalDelta :=
      { c.sphericalDelta with phi := c.sphericalDelta.phi - angle } }

/-- Clamp against a lower bound and an optional (possibly infinite) upper
bound: `Math.max(lo, Math.min(hi, v))` with `hi = Infinity` when `none`. -/
def clampOpt (lo : ℝ) (hi : Option ℝ) (v : ℝ) : ℝ :=
  max lo (match hi with | none => v | some h => min h v)

/-- `dollyOut`. -/
def dollyOut (c : Controls) (dollyScale : ℝ) : Controls :=
  match c.object.kind with
  | CameraKind.perspective => { c with scale := c.scale / dollyScale }
  | CameraKind.orthographic =>
    { c with
      object := { c.object with
        zoom := clampOpt c.minZoom c.maxZoom (c.object.zoom * dollyScale) },
      zoomChanged := true }

/-- `dollyIn`. -/
def dollyIn (c : Controls) (dollyScale : ℝ) : Controls :=
  match c.object.kind with
  | CameraKind.perspective => { c with scale := c.scale * dollyScale }
  | CameraKind.orthographic =>
    { c with
      object := { c.object with
        zoom := clampOpt c.minZoom c.maxZoom (c.object.zoom / dollyScale) },
      zoomChanged := true }

/-- One-step limit adjustment of the azimuthal-clamp block:
`if (min < -PI) min += twoPI; else if (min > PI) min -= twoPI;`. -/
def adjustAzLimit (x : ℝ) : ℝ :=
  if x < -Real.pi then x + 2 * Real.pi
  else if x > Real.pi then x - 2 * Real.pi
  else x

/-- Core of the azimuthal clamp: direct clamp when `min <= max`, otherwise
the midpoint tie-break between the two bounds. -/
def clampThetaCore (mn mx θ : ℝ) : ℝ :=
  if mn ≤ mx then max mn (min mx θ)
  else if θ > (mn + mx) / 2 then max mn θ else min mx θ

/-- The azimuthal-clamp block of `update`: applied only when both limits
are finite. -/
def azimuthStep (minAz maxAz : Option ℝ) (θ : ℝ) : ℝ :=
  match minAz, maxAz with
  | some mn, some mx => clampThetaCore (adjustAzLimit mn) (adjustAzLimit mx) θ
  | _, _ => θ

/-- Wrap of an angle into `(-π, π]` (used only to state what the spec
describes; the source never wraps `theta`). -/
def wrapToPi (θ : ℝ) : ℝ :=
  θ - 2 * Real.pi * ⌈(θ - Real.pi) / (2 * Real.pi)⌉

/-- The azimuthal step as the spec describes it for C3: wrap `theta` into
`(-π, π]` first, then clamp against the adjusted limits. -/
def azimuthStepSpecC3 (minAz maxAz : Option ℝ) (θ : ℝ) : ℝ :=
  match minAz, maxAz with
  | some mn, some mx =>
    clampThetaCore (adjustAzLimit mn) (adjustAzLimit mx) (wrapToPi θ)
  | _, _ => θ

/-- The azimuthal clamp as claim C4 words it: each finite limit is
normalized into `(-π, π]`, theta is clamped directly when the normalized
`min <= max`, else by the midpoint rule. -/
def clampThetaSpecC4 (mn mx θ : ℝ) : ℝ :=
  clampThetaCore (wrapToPi mn) (wrapToPi mx) θ

/-- The raw azimuthal angle of a call to `update`, just before the
azimuthal-clamp block: angle of the current offset plus the (possibly
damped) pending delta, with the auto-rotate injection. -/
def rawTheta (c : Controls) : ℝ :=
  let quat := quatFromUnitVectors c.object.up ⟨0, 1, 0⟩
  let offset0 := vapplyQuat (vsub c.object.position c.target) quat
  let s0 := sphFromVec3 offset0
  let deltaTheta :=
    if c.autoRotate = true ∧ c.state = GState.NONE then
      c.sphericalDelta.theta - getAutoRotationAngle c
    else c.sphericalDelta.theta
  if c.enableDamping then s0.theta + deltaTheta * c.dampingFactor
  else s0.theta + deltaTheta

/-- The raw polar angle of a call to `update`, just before the polar clamp
(the auto-rotate injection only touches theta). -/
def rawPhi (c : Controls) : ℝ :=
  let quat := quatFromUnitVectors c.object.up ⟨0, 1, 0⟩
  let offset0 := vapplyQuat (vsub c.object.position c.target) quat
  let s0 := sphFromVec3 offset0
  if c.enableDamping then s0.phi + c.sphericalDelta.phi * c.dampingFactor
  else s0.phi + c.sphericalDelta.phi

/-- The radius of a call to `update` after the pending scale is applied,
just before the distance clamp. -/
def rawRadius (c : Controls) : ℝ :=
  let quat := quatFromUnitVectors c.object.up ⟨0, 1, 0⟩
  let offset0 := vapplyQuat (vsub c.object.position c.target) quat
  (sphFromVec3 offset0).radius * c.scale

/-- The `update` method, translated statement by statement.  The returned
boolean is `true` exactly when the method dispatches a `change` event.
Note the faithful translation of the bug at the top of the method: the
locals `lastPosition` and `lastQuaternion` are recreated on every call
(zero vector and identity quaternion), shadowing the instance fields of
the same names, so the change detection compares against those fresh
values and the copies at the end write into dead locals. -/
def update (c : Controls) : Controls × Bool :=
  let quat := quatFromUnitVectors c.object.up ⟨0, 1, 0⟩
  let quatInv := qconj quat
  let offset0 := vapplyQuat (vsub c.object.position c.target) quat
  let s0 := sphFromVec3 offset0
  -- `rotateLeft(getAutoRotationAngle())` only touches the theta component,
  -- so the delta structure is flattened into its two read components
  let deltaTheta :=
    if c.autoRotate = true ∧ c.state = GState.NONE then
      c.sphericalDelta.theta - getAutoRotationAngle c
    else c.sphericalDelta.theta
  let θ1 := if c.enableDamping then s0.theta + deltaTheta * c.dampingFactor
            else s0.theta + deltaTheta
  let φ1 := if c.enableDamping then s0.phi + c.sphericalDelta.phi * c.dampingFactor
            else s0.phi + c.sphericalDelta.phi
  let θ2 := azimuthStep c.minAzimuthAngle c.maxAzimuthAngle θ1
  let φ2 := max c.minPolarAngle (min c.maxPolarAngle φ1)
  let φ3 := makeSafePhi φ2
  let r1 := clampOpt c.minDistance c.maxDistance (s0.radius * c.scale)
  let target1 := if c.enableDamping then
      vadd c.target (vsmul c.dampingFactor c.panOffset)
    else vadd c.target c.panOffset
  let s1 : Sph := { radius := r1, phi := φ3, theta := θ2 }
  let offset1 := vapplyQuat (vecFromSph s1) quatInv
  let position1 := vadd target1 offset1
  let quaternion1 := lookAtQuat position1 target1 c.object.up
  let delta1 :=
    if c.enableDamping then
      ({ radius := c.sphericalDelta.radius,
         phi := c.sphericalDelta.phi * (1 - c.dampingFactor),
         theta := deltaTheta * (1 - c.dampingFactor) } : Sph)
    else ({ radius := 0, phi := 0, theta := 0 } : Sph)
  let pan1 := if c.enableDamping then vsmul (1 - c.dampingFactor) c.panOffset
              else (⟨0, 0, 0⟩ : Vec3)
  let changed : Bool :=
    c.zoomChanged ||
    decide (vdistSq ⟨0, 0, 0⟩ position1 > controlsEPS) ||
    decide (8 * (1 - qdot ⟨0, 0, 0, 1⟩ quaternion1) > controlsEPS)
  ({ c with
      object := { c.object with position := position1, quaternion := quaternion1 },
      target := target1,
      spherical := s1,
      sphericalDelta := delta1,
      panOffset := pan1,
      scale := 1,
      zoomChanged := cond changed false c.zoomChanged },
   changed)

/-- `saveState`. -/
def saveState (c : Controls) : Controls :=
  { c with target0 := c.target, position0 := c.object.position,
           zoom0 := c.object.zoom }

/-- `reset`: restore the saved target/position/zoom, dispatch `change`,
run `update`, and force the gesture state back to NONE.  The returned
boolean is the inner `update` result. -/
def reset (c : Controls) : Controls × Bool :=
  let c1 := { c with
    target := c.target0,
    object := { c.object with position := c.position0, zoom := c.zoom0 } }
  let r := update c1
  ({ r.1 with state := GState.NONE }, r.2)

/-- `removePointer`: drop the pointer position entry and splice the first
pointer with the given id out of the pointer list. -/
def removePointer (c : Controls) (pid : Nat) : Controls :=
  { c with
    pointerPositions := c.pointerPositions.eraseP (fun p => p.1 = pid),
    pointers := c.pointers.eraseP (fun q => q = pid) }

/-- `onPointerUp`: deregister; when no pointers remain, release the DOM
capture and the move/up listeners; dispatch `end` and set the state to
NONE (both unconditionally in the source). -/
def onPointerUp (c : Controls) (pid : Nat) : Controls × List Evt :=
  let c1 := removePointer c pid
  let c2 := if c1.pointers.length = 0 then { c1 with capturing := false } else c1
  ({ c2 with state := GState.NONE }, [Evt.endE])

/-- `onPointerCancel`: the source only deregisters the pointer. -/
def onPointerCancel (c : Controls) (pid : Nat) : Controls × List Evt :=
  (removePointer c pid, [])

/-- The dolly-producing input events: a wheel notch (`onMouseWheel`), a
mouse dolly-drag step (`handleMouseMoveDolly`, argument = the vertical
delta), and a two-finger pinch step (`handleTouchMoveDollyPan`, arguments
= previous and current finger distance).  Each carries its `update` call
as in the source; the pan half of the combined two-finger gesture only
touches `panOffset` and is not needed by any claim. -/
inductive DollyOp
  | wheel (deltaY : ℝ)
  | mouseDolly (dy : ℝ)
  | pinch (dStart dEnd : ℝ)

/-- Apply one dolly-producing event, with the enable guards and the
trailing `update` of the corresponding source handler. -/
def applyDollyOp (c : Controls) (op : DollyOp) : Controls :=
  match op with
  | DollyOp.wheel dy =>
    if c.enabled = false ∨ c.enableZoom = false then c
    else
      let c1 := if dy < 0 then dollyIn c (getZoomScale c)
                else dollyOut c (getZoomScale c)
      (update c1).1
  | DollyOp.mouseDolly dy =>
    if c.enableZoom = false then c
    else
      let c1 := if dy > 0 then dollyOut c (getZoomScale c)
                else if dy < 0 then dollyIn c (getZoomScale c)
                else c
      (update c1).1
  | DollyOp.pinch dStart dEnd =>
    if c.enableZoom = false ∧ c.enablePan = false then c
    else
      let c1 := if c.enableZoom then
          dollyOut c (Real.rpow (dEnd / dStart) c.zoomSpeed)
        else c
      (update c1).1

/-- A sequence of dolly operations. -/
def applyDollySeq (c : Controls) (ops : List DollyOp) : Controls :=
  ops.foldl applyDollyOp c

/-- A controller in the configuration the application builds: perspective
camera at `(0, 0, 5)` (the `camera.position.z = 5` of the app entry point)
looking at the origin with the default option values of the source, and no
pending input. -/
def base : Controls :=
  { object := { kind := CameraKind.perspective, position := ⟨0, 0, 5⟩,
                up := ⟨0, 1, 0⟩, quaternion := ⟨0, 0, 0, 1⟩, zoom := 1 },
    target := ⟨0, 0, 0⟩, enabled := true,
    minDistance := 0, maxDistance := none, minZoom := 0, maxZoom := none,
    minPolarAngle := 0, maxPolarAngle := Real.pi,
    minAzimuthAngle := none, maxAzimuthAngle := none,
    enableDamping := false, dampingFactor := 0.05,
    enableZoom := true, zoomSpeed := 1, enableRotate := true, rotateSpeed := 1,
    enablePan := true, panSpeed := 1, autoRotate := false, autoRotateSpeed := 2,
    spherical := ⟨5, Real.pi / 2, 0⟩, sphericalDelta := ⟨0, 0, 0⟩,
    scale := 1, panOffset := ⟨0, 0, 0⟩, zoomChanged := false,
    pointers := [], pointerPositions := [], state := GState.NONE,
    capturing := false,
    target0 := ⟨0, 0, 0⟩, position0 := ⟨0, 0, 5⟩, zoom0 := 1,
    lastPosition := ⟨0, 0, 0⟩, lastQuaternion := ⟨0, 0, 0, 1⟩ }

/-- Witness configuration for the dolly claim: finite distance limits. -/
def cC2 : Controls := { base with minDistance := 1, maxDistance := some 2 }

/-- State with a pending rotate delta that pushes theta past `π`, and
finite azimuth limits `[-1, 1]`. -/
def sC3 : Controls :=
  { base with sphericalDelta := ⟨0, 0, 2 * Real.pi - 1 / 2⟩,
              minAzimuthAngle := some (-1), maxAzimuthAngle := some 1 }

/-- State with azimuth limits `[-π, 0]` (the lower limit exactly `-π`) and
a pending delta driving theta to `-4`. -/
def sC4 : Controls :=
  { base with sphericalDelta := ⟨0, 0, -4⟩,
              minAzimuthAngle := some (-Real.pi), maxAzimuthAngle := some 0 }

/-- Damped configuration at distance 1 used for the reset round-trip
claim: damping keeps part of a rotate delta pending across `update`. -/
def sC5 : Controls :=
  { base with object := { base.object with position := ⟨0, 0, 1⟩ },
              spherical := ⟨1, Real.pi / 2, 0⟩,
              enableDamping := true, dampingFactor := 1 / 2 }

/-- Two active touch pointers mid-gesture. -/
def cC6 : Controls :=
  { base with pointers := [1, 2],
              pointerPositions := [(1, (100, 100)), (2, (200, 200))],
              state := GState.TOUCH_DOLLY_PAN, capturing := true }

/-- A single active pointer mid-rotate. -/
def cC6b : Controls :=
  { base with pointers := [1], pointerPositions := [(1, (100, 100))],
              state := GState.ROTATE, capturing := true }

end

end Orbit

-- ═══════════════════════════ theorems ═══════════════════════════

namespace OBJ

theorem mem_flush {objs : List ParsedObject} {cur o : ParsedObject}
    (h : ∀ x ∈ objs, x.vertices ≠ [])
    (ho : o ∈ (if cur.vertices.length > 0 then objs ++ [cur] else objs)) :
    o.vertices ≠ [] := by
  split at ho
  · rcases List.mem_append.1 ho with h1 | h1
    · exact h o h1
    · rcases List.mem_singleton.1 h1 with rfl
      exact List.ne_nil_of_length_pos (by assumption)
  · exact h o ho

theorem processLine_nonempty (st : PState) (raw : List Char)
    (h : objectsNonempty st) : objectsNonempty (processLine st raw) := by
  unfold processLine
  dsimp only
  split
  · exact h
  · split
    · exact h
    · exact h
    · exact h
    · exact h
    · split
      · intro o ho
        dsimp at ho
        exact mem_flush h ho
      · exact h
      · exact h

theorem foldl_processLine_nonempty (lines : List (List Char)) :
    ∀ st : PState, objectsNonempty st →
      objectsNonempty (lines.foldl processLine st) := by
  induction lines with
  | nil => intro st h; exact h
  | cons l ls ih =>
    intro st h
    exact ih (processLine st l) (processLine_nonempty st l h)

theorem objParse_position_nonempty (text : String) :
    ∀ m ∈ objParse text, m.position ≠ [] := by
  intro m hm
  unfold objParse at hm
  dsimp only at hm
  rcases List.mem_map.1 hm with ⟨o, ho, rfl⟩
  dsimp only
  have hinv : objectsNonempty ((splitNl text.toList).foldl processLine initPState) :=
    foldl_processLine_nonempty _ initPState (by intro o h; simp [initPState] at h)
  exact mem_flush hinv ho

end OBJ

namespace OBJ

/-- C8: parsing the single-triangle input `v 0 0 0\nv 1 0 0\nv 0 1 0\nvt 0 0\n
vt 1 0\nvt 0 1\nvn 0 0 1\nvn 0 0 1\nvn 0 0 1\nf 1/1/1 2/2/2 3/3/3` produces
exactly one mesh object whose position attribute has exactly 9 floats, uv
attribute 6 floats and normal attribute 9 floats, equal to the input values
in face-corner order. -/
theorem c8_parse_single_triangle :
    objParse "v 0 0 0\nv 1 0 0\nv 0 1 0\nvt 0 0\nvt 1 0\nvt 0 1\nvn 0 0 1\nvn 0 0 1\nvn 0 0 1\nf 1/1/1 2/2/2 3/3/3" =
      [{ name := "", material := "",
         position := [some 0, some 0, some 0, some 1, some 0, some 0,
                      some 0, some 1, some 0],
         normal := [some 0, some 0, some 1, some 0, some 0, some 1,
                    some 0, some 0, some 1],
         uv := [some 0, some 0, some 1, some 0, some 0, some 1] }] := by
  decide

/-- C9: an input with two `o` declarations, each followed by a complete
triangle, yields exactly the two mesh objects in declaration order, each
populated from its own face lines; an `o` declaration that accumulated no
vertex data (here `o Empty`) is excluded — and in general every emitted mesh
has a nonempty position attribute. -/
theorem c9_two_objects_empty_excluded :
    objParse "o Empty\no A\nv 0 0 0\nv 1 0 0\nv 0 1 0\nvt 0 0\nvt 1 0\nvt 0 1\nvn 0 0 1\nvn 0 0 1\nvn 0 0 1\nf 1/1/1 2/2/2 3/3/3\no B\nv 0 0 2\nv 1 0 2\nv 0 1 2\nf 4/1/1 5/2/2 6/3/3" =
      [{ name := "A", material := "",
         position := [some 0, some 0, some 0, some 1, some 0, some 0,
                      some 0, some 1, some 0],
         normal := [some 0, some 0, some 1, some 0, some 0, some 1,
                    some 0, some 0, some 1],
         uv := [some 0, some 0, some 1, some 0, some 0, some 1] },
       { name := "B", material := "",
         position := [some 0, some 0, some 2, some 1, some 0, some 2,
                      some 0, some 1, some 2],
         normal := [some 0, some 0, some 1, some 0, some 0, some 1,
                    some 0, some 0, some 1],
         uv := [some 0, some 0, some 1, some 0, some 0, some 1] }] ∧
    ∀ text : String, (objParse text).all (fun m => !m.position.isEmpty) = true := by
  refine ⟨by decide, fun text => ?_⟩
  rw [List.all_eq_true]
  intro m hm
  simpa using objParse_position_nonempty text m hm

/-- C10: the face pattern accepts zero and negative index components and
`addFaceVertices` performs no range check: on the input below the face line
is not rejected, and the emitted attribute arrays contain `undefined`
entries (modelled as `none`) from the out-of-range pool reads. -/
theorem c10_face_indices_unchecked :
    objParse "v 1 2 3\nvt 5 6\nvn 7 8 9\nf 0/1/1 -1/2/1 2/1/3" =
      [{ name := "", material := "",
         position := [none, none, none, none, none, none, none, none, none],
         normal := [some 7, some 8, some 9, some 7, some 8, some 9,
                    none, none, none],
         uv := [some 5, some 6, none, none, some 5, some 6] }] := by
  decide

end OBJ

namespace Orbit

noncomputable section

open Real

theorem update_spherical (c : Controls) :
    (update c).1.spherical =
      ⟨clampOpt c.minDistance c.maxDistance (rawRadius c),
       makeSafePhi (max c.minPolarAngle (min c.maxPolarAngle (rawPhi c))),
       azimuthStep c.minAzimuthAngle c.maxAzimuthAngle (rawTheta c)⟩ := rfl

theorem makeSafePhi_pos (φ : ℝ) : 0 < makeSafePhi φ :=
  lt_of_lt_of_le (by norm_num [makeSafeEPS]) (le_max_left _ _)

theorem makeSafePhi_lt_pi (φ : ℝ) : makeSafePhi φ < Real.pi := by
  have hπ := Real.pi_gt_three
  apply max_lt
  · rw [makeSafeEPS]; linarith
  · calc min (Real.pi - makeSafeEPS) φ ≤ Real.pi - makeSafeEPS := min_le_left _ _
      _ < Real.pi := by rw [makeSafeEPS]; linarith

theorem clampOpt_bounds (lo v : ℝ) (hi : Option ℝ)
    (h : ∀ M, hi = some M → lo ≤ M) :
    lo ≤ clampOpt lo hi v ∧ ∀ M, hi = some M → clampOpt lo hi v ≤ M := by
  cases hi with
  | none => exact ⟨le_max_left _ _, by intro M hM; cases hM⟩
  | some M =>
    refine ⟨le_max_left _ _, ?_⟩
    intro N hN
    obtain rfl : M = N := by cases hN; rfl
    exact max_le (h M rfl) (min_le_left _ _)

end

end Orbit

namespace Orbit

noncomputable section

open Real

/-- C7: with polar-angle limits set to exactly `[0, π]`, the polar angle
after `update` is never exactly 0 and never exactly π: the clamped angle is
nudged inward by the `makeSafe` epsilon. -/
theorem c7_pole_epsilon_nudge (c : Controls)
    (h0 : c.minPolarAngle = 0) (h1 : c.maxPolarAngle = Real.pi) :
    (update c).1.spherical.phi ≠ 0 ∧ (update c).1.spherical.phi ≠ Real.pi := by
  have hφ : (update c).1.spherical.phi =
      makeSafePhi (max c.minPolarAngle (min c.maxPolarAngle (rawPhi c))) :=
    congrArg Sph.phi (update_spherical c)
  rw [hφ, h0, h1]
  exact ⟨ne_of_gt (makeSafePhi_pos _), ne_of_lt (makeSafePhi_lt_pi _)⟩

/-- Closed witness for `c7_pole_epsilon_nudge` at the application state. -/
theorem c7_pole_epsilon_nudge_witness :
    base.minPolarAngle = 0 ∧ base.maxPolarAngle = Real.pi ∧
    ((update base).1.spherical.phi ≠ 0 ∧ (update base).1.spherical.phi ≠ Real.pi) :=
  ⟨rfl, rfl, c7_pole_epsilon_nudge base rfl rfl⟩

theorem dollyOut_distance_limits (c : Controls) (s : ℝ) :
    (dollyOut c s).minDistance = c.minDistance ∧
    (dollyOut c s).maxDistance = c.maxDistance := by
  unfold dollyOut
  cases c.object.kind <;> exact ⟨rfl, rfl⟩

theorem dollyIn_distance_limits (c : Controls) (s : ℝ) :
    (dollyIn c s).minDistance = c.minDistance ∧
    (dollyIn c s).maxDistance = c.maxDistance := by
  unfold dollyIn
  cases c.object.kind <;> exact ⟨rfl, rfl⟩

theorem applyDollyOp_distance_limits (c : Controls) (op : DollyOp) :
    (applyDollyOp c op).minDistance = c.minDistance ∧
    (applyDollyOp c op).maxDistance = c.maxDistance := by
  cases op <;> simp only [applyDollyOp] <;>
    repeat'
      first
      | exact ⟨rfl, rfl⟩
      | exact dollyIn_distance_limits c _
      | exact dollyOut_distance_limits c _
      | split

theorem applyDollySeq_distance_limits (ops : List DollyOp) :
    ∀ c : Controls,
      (applyDollySeq c ops).minDistance = c.minDistance ∧
      (applyDollySeq c ops).maxDistance = c.maxDistance := by
  induction ops with
  | nil => intro c; exact ⟨rfl, rfl⟩
  | cons op rest ih =>
    intro c
    have h1 := applyDollyOp_distance_limits c op
    have h2 := ih (applyDollyOp c op)
    exact ⟨h2.1.trans h1.1, h2.2.trans h1.2⟩

/-- C2: for a configuration whose finite distance limits satisfy
`minDistance <= maxDistance`, after any sequence of dolly operations
followed by `update`, `spherical.radius` lies within
`[minDistance, maxDistance]` (an absent `maxDistance` models the infinite
default). -/
theorem c2_radius_within_limits (c : Controls) (ops : List DollyOp)
    (h : ∀ M, c.maxDistance = some M → c.minDistance ≤ M) :
    c.minDistance ≤ (update (applyDollySeq c ops)).1.spherical.radius ∧
    ∀ M, c.maxDistance = some M →
      (update (applyDollySeq c ops)).1.spherical.radius ≤ M := by
  have hlim := applyDollySeq_distance_limits ops c
  have hr : (update (applyDollySeq c ops)).1.spherical.radius =
      clampOpt (applyDollySeq c ops).minDistance (applyDollySeq c ops).maxDistance
        (rawRadius (applyDollySeq c ops)) :=
    congrArg Sph.radius (update_spherical _)
  rw [hr, hlim.1, hlim.2]
  exact clampOpt_bounds c.minDistance _ c.maxDistance h

/-- Closed witness for `c2_radius_within_limits`: limits `[1, 2]` and a
wheel-in, pinch-out, wheel-out sequence. -/
theorem c2_radius_within_limits_witness :
    (∀ M, cC2.maxDistance = some M → cC2.minDistance ≤ M) ∧
    (cC2.minDistance ≤
      (update (applyDollySeq cC2
        [DollyOp.wheel (-1), DollyOp.pinch 10 20, DollyOp.wheel 1])).1.spherical.radius ∧
     ∀ M, cC2.maxDistance = some M →
      (update (applyDollySeq cC2
        [DollyOp.wheel (-1), DollyOp.pinch 10 20, DollyOp.wheel 1])).1.spherical.radius ≤ M) := by
  have h : ∀ M, cC2.maxDistance = some M → cC2.minDistance ≤ M := by
    intro M hM
    have : (some (2:ℝ) : Option ℝ) = some M := hM
    obtain rfl : (2:ℝ) = M := by cases this; rfl
    norm_num [cC2, base]
  exact ⟨h, c2_radius_within_limits cC2 _ h⟩

end

end Orbit

namespace Orbit

noncomputable section

/-- C6 counterexample: with two active pointers, releasing one dispatches
`end` although a pointer remains (the claim says `end` is dispatched only
when none remain); and a pointer-cancel that removes the last pointer
dispatches nothing and leaves the gesture state untouched (the claim says
cancel behaves like up, with `end` and a reset to NONE). -/
theorem c6_counterexample :
    (onPointerUp cC6 1).1.pointers = [2] ∧
    (onPointerUp cC6 1).2 = [Evt.endE] ∧
    (onPointerCancel cC6b 1).1.pointers = [] ∧
    (onPointerCancel cC6b 1).2 = [] ∧
    (onPointerCancel cC6b 1).1.state = GState.ROTATE := by
  refine ⟨rfl, rfl, rfl, rfl, rfl⟩

/-- C6 amended: on pointer-up the pointer is deregistered and the capture
with its move/up listeners is released exactly when no pointers remain, but
`end` is dispatched and the gesture state reset to NONE unconditionally;
pointer-cancel only deregisters the pointer (no `end`, no state reset, no
capture release). -/
theorem c6_amended_pointer_up_cancel (c : Controls) (pid : Nat) :
    (onPointerUp c pid).2 = [Evt.endE] ∧
    (onPointerUp c pid).1.state = GState.NONE ∧
    (onPointerUp c pid).1.pointers = (removePointer c pid).pointers ∧
    (onPointerUp c pid).1.capturing =
      (if (removePointer c pid).pointers.length = 0 then false else c.capturing) ∧
    (onPointerCancel c pid).1 = removePointer c pid ∧
    (onPointerCancel c pid).2 = [] := by
  refine ⟨rfl, rfl, ?_, ?_, rfl, rfl⟩
  · unfold onPointerUp
    dsimp only
    split
    · rfl
    · rfl
  · unfold onPointerUp
    dsimp only
    split
    · rfl
    · rfl

end

end Orbit

namespace Orbit

noncomputable section

open Real

theorem adjust_eq_self {x : ℝ} (h1 : -Real.pi ≤ x) (h2 : x ≤ Real.pi) :
    adjustAzLimit x = x := by
  unfold adjustAzLimit
  rw [if_neg (not_lt.2 h1), if_neg (not_lt.2 h2)]

theorem wrapToPi_eq_self {θ : ℝ} (h1 : -Real.pi < θ) (h2 : θ ≤ Real.pi) :
    wrapToPi θ = θ := by
  have hπ := Real.pi_pos
  have h2π : (0:ℝ) < 2 * Real.pi := by linarith
  have hc : ⌈(θ - Real.pi) / (2 * Real.pi)⌉ = 0 := by
    rw [Int.ceil_eq_zero_iff, Set.mem_Ioc]
    constructor
    · rw [lt_div_iff₀ h2π]; linarith
    · rw [div_nonpos_iff]; right; constructor <;> linarith
  rw [wrapToPi, hc]
  push_cast
  ring

theorem wrapToPi_two_pi_sub_half : wrapToPi (2 * Real.pi - 1 / 2) = -(1 / 2) := by
  have hπ := Real.pi_gt_three
  have h2π : (0:ℝ) < 2 * Real.pi := by linarith
  have hc : ⌈(2 * Real.pi - 1 / 2 - Real.pi) / (2 * Real.pi)⌉ = 1 := by
    rw [Int.ceil_eq_iff]
    constructor
    · push_cast
      rw [lt_div_iff₀ h2π]
      linarith
    · push_cast
      rw [div_le_one h2π]
      linarith
  rw [wrapToPi, hc]
  push_cast
  ring

theorem wrapToPi_neg_pi : wrapToPi (-Real.pi) = Real.pi := by
  have hπ := Real.pi_ne_zero
  have hc : ⌈(-Real.pi - Real.pi) / (2 * Real.pi)⌉ = -1 := by
    rw [show (-Real.pi - Real.pi) / (2 * Real.pi) = ((-1 : ℤ) : ℝ) by
      push_cast; field_simp; ring]
    exact Int.ceil_intCast (-1)
  rw [wrapToPi, hc]
  push_cast
  ring

theorem quatY : quatFromUnitVectors ⟨0, 1, 0⟩ ⟨0, 1, 0⟩ = ⟨0, 0, 0, 1⟩ := by
  have hsq : Real.sqrt 4 = 2 := by
    rw [show (4 : ℝ) = 2 ^ 2 by norm_num]
    exact Real.sqrt_sq (by norm_num)
  unfold quatFromUnitVectors
  rw [if_neg (by simp only [vdot]; norm_num [numberEPS])]
  simp only [qnormalize, qlength, vdot]
  norm_num [hsq]

theorem vapplyQuat_id (v : Vec3) : vapplyQuat v ⟨0, 0, 0, 1⟩ = v := by
  cases v with
  | mk a b c => simp [vapplyQuat]

theorem qconj_id : qconj ⟨0, 0, 0, 1⟩ = ⟨0, 0, 0, 1⟩ := by
  simp [qconj]

theorem sphFromVec3_zpos (r : ℝ) (hr : 0 < r) :
    sphFromVec3 ⟨0, 0, r⟩ = ⟨r, Real.pi / 2, 0⟩ := by
  unfold sphFromVec3
  have hs : Real.sqrt (0 * 0 + 0 * 0 + r * r) = r := by
    rw [show (0 * 0 + 0 * 0 + r * r : ℝ) = r ^ 2 by ring]
    exact Real.sqrt_sq hr.le
  rw [hs, if_neg hr.ne.symm]
  have hth : atan2 0 r = 0 := by
    unfold atan2
    rw [if_pos hr, zero_div, Real.arctan_zero]
  have hph : Real.arccos (clampV (0 / r) (-1) 1) = Real.pi / 2 := by
    rw [zero_div, show clampV 0 (-1) 1 = 0 by norm_num [clampV], Real.arccos_zero]
  rw [hth, hph]

theorem sph_z5 : sphFromVec3 ⟨0, 0, 5⟩ = ⟨5, Real.pi / 2, 0⟩ :=
  sphFromVec3_zpos 5 (by norm_num)

theorem sph_z1 : sphFromVec3 ⟨0, 0, 1⟩ = ⟨1, Real.pi / 2, 0⟩ :=
  sphFromVec3_zpos 1 (by norm_num)

theorem vecFromSph_pihalf (r θ : ℝ) :
    vecFromSph ⟨r, Real.pi / 2, θ⟩ = ⟨r * Real.sin θ, 0, r * Real.cos θ⟩ := by
  unfold vecFromSph
  simp [Real.sin_pi_div_two, Real.cos_pi_div_two]

theorem rawTheta_base_like (c : Controls) (hobj : c.object = base.object)
    (htgt : c.target = ⟨0, 0, 0⟩) (hauto : c.autoRotate = false)
    (hdamp : c.enableDamping = false) :
    rawTheta c = c.sphericalDelta.theta := by
  unfold rawTheta
  simp only [hobj, htgt, hauto, hdamp, base]
  simp only [vsub, sub_zero]
  norm_num [quatY, vapplyQuat_id, sph_z5]

end

end Orbit

namespace Orbit

noncomputable section

open Real

/-- C3 counterexample: on a state whose pending delta drives theta to
`2π - 1/2` with finite azimuth limits `[-1, 1]`, `update` clamps the raw
angle directly and yields `1`, while the claimed wrap-into-`(-π, π]`-first
algorithm yields `-1/2`: theta is not wrapped before azimuthal clamping. -/
theorem c3_counterexample :
    (update sC3).1.spherical.theta = 1 ∧
    azimuthStepSpecC3 sC3.minAzimuthAngle sC3.maxAzimuthAngle (rawTheta sC3) =
      -(1 / 2) ∧
    ((1 : ℝ) ≠ -(1 / 2)) := by
  have hπ3 := Real.pi_gt_three
  have hraw : rawTheta sC3 = 2 * Real.pi - 1 / 2 := by
    rw [rawTheta_base_like sC3 rfl rfl rfl rfl]
    rfl
  have hadj1 : adjustAzLimit (-1) = -1 :=
    adjust_eq_self (by linarith) (by linarith)
  have hadj2 : adjustAzLimit 1 = 1 :=
    adjust_eq_self (by linarith) (by linarith)
  refine ⟨?_, ?_, by norm_num⟩
  · have h := congrArg Sph.theta (update_spherical sC3)
    dsimp only at h
    rw [h, hraw, show sC3.minAzimuthAngle = some (-1) from rfl,
        show sC3.maxAzimuthAngle = some 1 from rfl]
    simp only [azimuthStep, hadj1, hadj2, clampThetaCore]
    rw [if_pos (by norm_num : (-1 : ℝ) ≤ 1),
        min_eq_left (by linarith : (1 : ℝ) ≤ 2 * Real.pi - 1 / 2),
        max_eq_right (by norm_num : (-1 : ℝ) ≤ 1)]
  · rw [hraw, show sC3.minAzimuthAngle = some (-1) from rfl,
        show sC3.maxAzimuthAngle = some 1 from rfl]
    simp only [azimuthStepSpecC3, hadj1, hadj2, wrapToPi_two_pi_sub_half,
      clampThetaCore]
    rw [if_pos (by norm_num : (-1 : ℝ) ≤ 1),
        min_eq_right (by norm_num : (-(1 / 2) : ℝ) ≤ 1),
        max_eq_right (by norm_num : (-1 : ℝ) ≤ -(1 / 2))]

/-- C3 amended: the azimuthal step of `update` does not wrap theta; it
clamps the raw accumulated angle directly against the one-step-adjusted
limits, which coincides with the spec's wrap-then-clamp algorithm exactly
when the raw angle already lies in `(-π, π]`. -/
theorem c3_amended_no_wrap (c : Controls)
    (h1 : -Real.pi < rawTheta c) (h2 : rawTheta c ≤ Real.pi) :
    (update c).1.spherical.theta =
      azimuthStepSpecC3 c.minAzimuthAngle c.maxAzimuthAngle (rawTheta c) := by
  have h := congrArg Sph.theta (update_spherical c)
  dsimp only at h
  rw [h]
  cases c.minAzimuthAngle <;> cases c.maxAzimuthAngle <;>
    simp only [azimuthStep, azimuthStepSpecC3, wrapToPi_eq_self h1 h2]

/-- Closed witness for `c3_amended_no_wrap` at the application state. -/
theorem c3_amended_no_wrap_witness :
    (-Real.pi < rawTheta base ∧ rawTheta base ≤ Real.pi) ∧
    (update base).1.spherical.theta =
      azimuthStepSpecC3 base.minAzimuthAngle base.maxAzimuthAngle (rawTheta base) := by
  have hraw : rawTheta base = 0 := by
    rw [rawTheta_base_like base rfl rfl rfl rfl]
    rfl
  have h1 : -Real.pi < rawTheta base := by
    rw [hraw]; linarith [Real.pi_pos]
  have h2 : rawTheta base ≤ Real.pi := by
    rw [hraw]; linarith [Real.pi_pos]
  exact ⟨⟨h1, h2⟩, c3_amended_no_wrap base h1 h2⟩

/-- C4 counterexample: with azimuth limits `[-π, 0]` (lower limit exactly
`-π`, which the claimed normalization into `(-π, π]` would map to `π`) and
a raw angle of `-4`, `update` yields `-π`, while the claim's algorithm
yields `-4`. -/
theorem c4_counterexample :
    (update sC4).1.spherical.theta = -Real.pi ∧
    clampThetaSpecC4 (-Real.pi) 0 (rawTheta sC4) = -4 ∧
    (-Real.pi ≠ (-4 : ℝ)) := by
  have hπ3 := Real.pi_gt_three
  have hπ4 := Real.pi_lt_d2
  have hraw : rawTheta sC4 = -4 := by
    rw [rawTheta_base_like sC4 rfl rfl rfl rfl]
    rfl
  refine ⟨?_, ?_, ?_⟩
  · have h := congrArg Sph.theta (update_spherical sC4)
    dsimp only at h
    rw [h, hraw, show sC4.minAzimuthAngle = some (-Real.pi) from rfl,
        show sC4.maxAzimuthAngle = some 0 from rfl]
    have hadj1 : adjustAzLimit (-Real.pi) = -Real.pi :=
      adjust_eq_self le_rfl (by linarith)
    have hadj2 : adjustAzLimit 0 = 0 :=
      adjust_eq_self (by linarith) (by linarith)
    simp only [azimuthStep, hadj1, hadj2, clampThetaCore]
    rw [if_pos (by linarith : (-Real.pi : ℝ) ≤ 0),
        min_eq_right (by norm_num : (-4 : ℝ) ≤ 0),
        max_eq_left (by linarith : (-4 : ℝ) ≤ -Real.pi)]
  · rw [hraw]
    simp only [clampThetaSpecC4, wrapToPi_neg_pi,
      wrapToPi_eq_self (by linarith : -Real.pi < (0:ℝ)) (by linarith : (0:ℝ) ≤ Real.pi),
      clampThetaCore]
    rw [if_neg (by linarith : ¬ (Real.pi ≤ 0)),
        if_neg (by linarith : ¬ ((-4 : ℝ) > (Real.pi + 0) / 2)),
        min_eq_right (by norm_num : (-4 : ℝ) ≤ 0)]
  · intro h
    have h4 : Real.pi = 4 := by linarith [neg_inj.mp h]
    linarith

/-- C4 amended: the azimuthal clamp adjusts each finite limit by at most
one `±2π` step, which maps limits into `[-π, π]` but leaves a limit of
exactly `-π` in place (the claimed interval `(-π, π]` is only correct for
limits already in it); for limits in `(-π, π]` the code step equals the
claim's algorithm, direct clamp when `min <= max` and midpoint tie-break
otherwise. -/
theorem c4_amended_adjusted_limits (mn mx θ : ℝ)
    (hmn1 : -Real.pi < mn) (hmn2 : mn ≤ Real.pi)
    (hmx1 : -Real.pi < mx) (hmx2 : mx ≤ Real.pi) :
    azimuthStep (some mn) (some mx) θ = clampThetaSpecC4 mn mx θ := by
  simp only [azimuthStep, clampThetaSpecC4,
    adjust_eq_self hmn1.le hmn2, adjust_eq_self hmx1.le hmx2,
    wrapToPi_eq_self hmn1 hmn2, wrapToPi_eq_self hmx1 hmx2]

/-- Closed witness for `c4_amended_adjusted_limits` on the wrap-around
range `min = 1 > max = -1`. -/
theorem c4_amended_adjusted_limits_witness :
    (-Real.pi < (1:ℝ) ∧ (1:ℝ) ≤ Real.pi ∧ -Real.pi < (-1:ℝ) ∧ (-1:ℝ) ≤ Real.pi) ∧
    azimuthStep (some 1) (some (-1)) 5 = clampThetaSpecC4 1 (-1) 5 := by
  have hπ3 := Real.pi_gt_three
  refine ⟨⟨by linarith, by linarith, by linarith, by linarith⟩, ?_⟩
  exact c4_amended_adjusted_limits 1 (-1) 5
    (by linarith) (by linarith) (by linarith) (by linarith)

end

end Orbit

namespace Orbit

noncomputable section

open Real

theorem sqrt_25 : Real.sqrt 25 = 5 := by
  rw [show (25 : ℝ) = 5 ^ 2 by norm_num]
  exact Real.sqrt_sq (by norm_num)

theorem sqrt_4 : Real.sqrt 4 = 2 := by
  rw [show (4 : ℝ) = 2 ^ 2 by norm_num]
  exact Real.sqrt_sq (by norm_num)

theorem lookAtQuat_z5 : lookAtQuat ⟨0, 0, 5⟩ ⟨0, 0, 0⟩ ⟨0, 1, 0⟩ = ⟨0, 0, 0, 1⟩ := by
  unfold lookAtQuat
  norm_num [vsub, vlengthSq, vnormalize, vlength, vcross, vsmul,
    quatFromColumns, sqrt_25, sqrt_4, Real.sqrt_one]

end

end Orbit

namespace Orbit

noncomputable section

open Real

theorem min_pi_half : min Real.pi (Real.pi / 2) = Real.pi / 2 :=
  min_eq_right (by linarith [Real.pi_pos])

theorem max_zero_pi_half : max (0 : ℝ) (Real.pi / 2) = Real.pi / 2 :=
  max_eq_right (by positivity)

theorem makeSafePhi_pi_half : makeSafePhi (Real.pi / 2) = Real.pi / 2 := by
  have h := Real.pi_gt_three
  unfold makeSafePhi makeSafeEPS
  rw [min_eq_right (by norm_num; linarith), max_eq_right (by norm_num; linarith)]

theorem update_base : update base = (base, true) := by
  unfold update base
  norm_num [quatY, qconj_id, vapplyQuat_id, vsub, sph_z5, azimuthStep,
    vecFromSph_pihalf, lookAtQuat_z5, vadd, clampOpt, min_pi_half,
    max_zero_pi_half, makeSafePhi_pi_half, vdistSq, qdot, controlsEPS]

/-- C1: `update` is not idempotent in this code — on the steady application
state with no pending input, the first call reports a change and a second
call with no intervening input reports a change again (the claim expects
`false`).  Cause: the method recreates its `lastPosition`/`lastQuaternion`
comparison values as fresh locals on every call instead of using the cached
instance fields, so change detection always compares against the zero
vector and the identity quaternion. -/
theorem c1_second_update_still_reports_change :
    (update base).2 = true ∧ (update (update base).1).2 = true := by
  rw [update_base]
  exact ⟨rfl, (congrArg Prod.snd update_base)⟩

end

end Orbit

namespace Orbit

noncomputable section

open Real

theorem lookAtQuat_zneg1 :
    lookAtQuat ⟨0, 0, -1⟩ ⟨0, 0, 0⟩ ⟨0, 1, 0⟩ = ⟨0, 1, 0, 0⟩ := by
  unfold lookAtQuat
  norm_num [vsub, vlengthSq, vnormalize, vlength, vcross, vsmul,
    quatFromColumns, sqrt_4, Real.sqrt_one]

/-- The state reached from `sC5` by `saveState` followed by the rotate
gesture accumulation `rotateLeft(-2π)`. -/
def cB : Controls :=
  { sC5 with sphericalDelta := ⟨0, 0, 2 * Real.pi⟩,
             target0 := ⟨0, 0, 0⟩, position0 := ⟨0, 0, 1⟩, zoom0 := 1 }

theorem saveState_rotate_eval :
    rotateLeft (saveState sC5) (-(2 * Real.pi)) = cB := by
  norm_num [rotateLeft, saveState, cB, sC5, base]

/-- The state after the damped `update` that the touch-rotate move handler
performs: the camera has swung to `(0,0,-1)` and half of the delta
(`theta = π`) is still pending. -/
def cB2 : Controls :=
  { sC5 with
      object := { kind := CameraKind.perspective, position := ⟨0, 0, -1⟩,
                  up := ⟨0, 1, 0⟩, quaternion := ⟨0, 1, 0, 0⟩, zoom := 1 },
      spherical := ⟨1, Real.pi / 2, Real.pi⟩,
      sphericalDelta := ⟨0, 0, Real.pi⟩,
      target0 := ⟨0, 0, 0⟩, position0 := ⟨0, 0, 1⟩, zoom0 := 1 }

theorem update_cB : update cB = (cB2, true) := by
  unfold update cB cB2 sC5 base
  norm_num [quatY, qconj_id, vapplyQuat_id, vsub, sph_z1, azimuthStep,
    vecFromSph_pihalf, lookAtQuat_zneg1, vadd, vsmul, clampOpt,
    mul_one_div, min_pi_half, max_zero_pi_half, makeSafePhi_pi_half,
    Real.sin_pi, Real.cos_pi, vdistSq, qdot, controlsEPS]

end

end Orbit

namespace Orbit

noncomputable section

open Real

theorem clampV_id {t : ℝ} (h1 : -1 ≤ t) (h2 : t ≤ 1) : clampV t (-1) 1 = t := by
  unfold clampV
  rw [min_eq_right h2, max_eq_right h1]

theorem atan2_polar (x z : ℝ) :
    Real.sqrt (x * x + z * z) * Real.sin (atan2 x z) = x ∧
    Real.sqrt (x * x + z * z) * Real.cos (atan2 x z) = z := by
  unfold atan2
  rcases lt_trichotomy z 0 with hz | hz | hz
  · -- z < 0: the two shifted-arctan branches
    rw [if_neg (by linarith), if_pos hz]
    have hz2 : (0:ℝ) < z * z := mul_pos_of_neg_of_neg hz hz
    have h1 : (0:ℝ) < x * x + z * z := by nlinarith [mul_self_nonneg x]
    have ha : (0:ℝ) < Real.sqrt (x * x + z * z) := Real.sqrt_pos.2 h1
    have hs : Real.sqrt (1 + (x / z) ^ 2) = Real.sqrt (x * x + z * z) / (-z) := by
      rw [show 1 + (x / z) ^ 2 = (x * x + z * z) / z ^ 2 by
        field_simp [hz.ne]; ring]
      rw [Real.sqrt_div h1.le, Real.sqrt_sq_eq_abs, abs_of_neg hz]
    have hsin : Real.sin (if 0 ≤ x then Real.arctan (x / z) + Real.pi
        else Real.arctan (x / z) - Real.pi) = -Real.sin (Real.arctan (x / z)) := by
      split
      · rw [Real.sin_add, Real.sin_pi, Real.cos_pi]; ring
      · rw [Real.sin_sub, Real.sin_pi, Real.cos_pi]; ring
    have hcos : Real.cos (if 0 ≤ x then Real.arctan (x / z) + Real.pi
        else Real.arctan (x / z) - Real.pi) = -Real.cos (Real.arctan (x / z)) := by
      split
      · rw [Real.cos_add, Real.sin_pi, Real.cos_pi]; ring
      · rw [Real.cos_sub, Real.sin_pi, Real.cos_pi]; ring
    rw [hsin, hcos, Real.sin_arctan, Real.cos_arctan, hs]
    constructor
    · field_simp [hz.ne, ha.ne']
      try ring
    · field_simp [hz.ne, ha.ne']
      try ring
  · -- z = 0: the three vertical branches
    subst hz
    rcases lt_trichotomy x 0 with hx | hx | hx
    · rw [if_neg (by linarith), if_neg (by linarith), if_neg (by linarith),
          if_pos hx]
      rw [Real.sin_neg, Real.cos_neg, Real.sin_pi_div_two, Real.cos_pi_div_two]
      constructor
      · rw [show x * x + 0 * 0 = x ^ 2 by ring, Real.sqrt_sq_eq_abs,
            abs_of_neg hx]
        ring
      · ring
    · subst hx
      norm_num
    · rw [if_neg (by linarith), if_neg (by linarith), if_pos hx]
      rw [Real.sin_pi_div_two, Real.cos_pi_div_two]
      constructor
      · rw [show x * x + 0 * 0 = x ^ 2 by ring, Real.sqrt_sq_eq_abs,
            abs_of_pos hx]
        ring
      · ring
  · -- 0 < z: the plain arctan branch
    rw [if_pos hz]
    have hz2 : (0:ℝ) < z * z := mul_pos hz hz
    have h1 : (0:ℝ) < x * x + z * z := by nlinarith [mul_self_nonneg x]
    have ha : (0:ℝ) < Real.sqrt (x * x + z * z) := Real.sqrt_pos.2 h1
    have hs : Real.sqrt (1 + (x / z) ^ 2) = Real.sqrt (x * x + z * z) / z := by
      rw [show 1 + (x / z) ^ 2 = (x * x + z * z) / z ^ 2 by
        field_simp [hz.ne']; ring]
      rw [Real.sqrt_div h1.le, Real.sqrt_sq_eq_abs, abs_of_pos hz]
    rw [Real.sin_arctan, Real.cos_arctan, hs]
    constructor
    · field_simp [hz.ne', ha.ne']
      try ring
    · field_simp [hz.ne', ha.ne']
      try ring

end

end Orbit

namespace Orbit

noncomputable section

open Real

theorem sphFromVec3_radius_nonneg (v : Vec3) : 0 ≤ (sphFromVec3 v).radius := by
  unfold sphFromVec3
  dsimp only
  split <;> exact Real.sqrt_nonneg _

theorem sphFromVec3_phi_mem (v : Vec3)
    (hv : Real.sqrt (v.x * v.x + v.y * v.y + v.z * v.z) ≠ 0) :
    0 ≤ (sphFromVec3 v).phi ∧ (sphFromVec3 v).phi ≤ Real.pi := by
  unfold sphFromVec3
  rw [if_neg hv]
  exact ⟨Real.arccos_nonneg _, Real.arccos_le_pi _⟩

/-- Converting a nonzero offset to spherical coordinates and back is the
identity (the round trip `setFromVector3` then `setFromSpherical`). -/
theorem sph_roundtrip (v : Vec3) (hv : vlength v ≠ 0) :
    vecFromSph (sphFromVec3 v) = v := by
  have hs : (0:ℝ) ≤ v.x * v.x + v.y * v.y + v.z * v.z := by
    nlinarith [mul_self_nonneg v.x, mul_self_nonneg v.y, mul_self_nonneg v.z]
  have hv' : Real.sqrt (v.x * v.x + v.y * v.y + v.z * v.z) ≠ 0 := hv
  have hr : (0:ℝ) < Real.sqrt (v.x * v.x + v.y * v.y + v.z * v.z) :=
    (Real.sqrt_nonneg _).lt_of_ne (Ne.symm hv')
  have hS2 : Real.sqrt (v.x * v.x + v.y * v.y + v.z * v.z) ^ 2 =
      v.x * v.x + v.y * v.y + v.z * v.z := Real.sq_sqrt hs
  have hy2 : v.y ^ 2 ≤ Real.sqrt (v.x * v.x + v.y * v.y + v.z * v.z) ^ 2 := by
    rw [hS2]
    nlinarith [mul_self_nonneg v.x, mul_self_nonneg v.z]
  have hyabs : |v.y| ≤ Real.sqrt (v.x * v.x + v.y * v.y + v.z * v.z) := by
    calc |v.y| = Real.sqrt (v.y ^ 2) := (Real.sqrt_sq_eq_abs _).symm
      _ ≤ Real.sqrt (Real.sqrt (v.x * v.x + v.y * v.y + v.z * v.z) ^ 2) :=
          Real.sqrt_le_sqrt hy2
      _ = Real.sqrt (v.x * v.x + v.y * v.y + v.z * v.z) :=
          Real.sqrt_sq (Real.sqrt_nonneg _)
  have hb := abs_le.1 hyabs
  have hq1 : -1 ≤ v.y / Real.sqrt (v.x * v.x + v.y * v.y + v.z * v.z) := by
    rw [le_div_iff₀ hr]; linarith
  have hq2 : v.y / Real.sqrt (v.x * v.x + v.y * v.y + v.z * v.z) ≤ 1 := by
    rw [div_le_one hr]; linarith
  have hsin : Real.sin (Real.arccos
      (v.y / Real.sqrt (v.x * v.x + v.y * v.y + v.z * v.z))) *
      Real.sqrt (v.x * v.x + v.y * v.y + v.z * v.z) =
      Real.sqrt (v.x * v.x + v.z * v.z) := by
    rw [Real.sin_arccos]
    rw [show 1 - (v.y / Real.sqrt (v.x * v.x + v.y * v.y + v.z * v.z)) ^ 2 =
        (v.x * v.x + v.z * v.z) /
          Real.sqrt (v.x * v.x + v.y * v.y + v.z * v.z) ^ 2 by
      rw [div_pow, one_sub_div (pow_ne_zero 2 hv'), hS2,
          show v.x * v.x + v.y * v.y + v.z * v.z - v.y ^ 2 =
            v.x * v.x + v.z * v.z by ring]]
    rw [Real.sqrt_div (by nlinarith [mul_self_nonneg v.x, mul_self_nonneg v.z]),
        Real.sqrt_sq (Real.sqrt_nonneg _)]
    exact div_mul_cancel₀ _ hv'
  unfold sphFromVec3
  rw [if_neg hv']
  unfold vecFromSph
  dsimp only
  rw [clampV_id hq1 hq2, Real.cos_arccos hq1 hq2, hsin,
      div_mul_cancel₀ _ hv',
      (atan2_polar v.x v.z).1, (atan2_polar v.x v.z).2]

end

end Orbit

namespace Orbit

noncomputable section

open Real

theorem reset_cB2_pos : (reset cB2).1.object.position = ⟨1, 0, 0⟩ := by
  unfold reset update cB2 sC5 base
  norm_num [quatY, qconj_id, vapplyQuat_id, vsub, sph_z1, azimuthStep,
    vecFromSph_pihalf, vadd, vsmul, clampOpt, mul_one_div, min_pi_half,
    max_zero_pi_half, makeSafePhi_pi_half, Real.sin_pi_div_two,
    Real.cos_pi_div_two]

/-- C5 counterexample: starting from the damped configuration `sC5`, the
sequence `saveState()`, a rotate-gesture accumulation `rotateLeft(-2π)`,
the handler's `update()` (which, with damping, keeps half of the delta
pending), and then `reset()` leaves the camera at `(1,0,0)` — not at the
saved position `(0,0,1)`: `reset` restores the fields and then runs
`update`, which re-applies the still-pending damped delta. -/
theorem c5_counterexample :
    (reset (update (rotateLeft (saveState sC5) (-(2 * Real.pi)))).1).1.object.position ≠
      (update (rotateLeft (saveState sC5) (-(2 * Real.pi)))).1.position0 := by
  rw [saveState_rotate_eval,
      show (update cB).1 = cB2 from congrArg Prod.fst update_cB,
      reset_cB2_pos,
      show cB2.position0 = (⟨0, 0, 1⟩ : Vec3) from rfl]
  intro h
  exact absurd (congrArg Vec3.x h) (by norm_num)

theorem vsmul_zero3 (s : ℝ) : vsmul s ⟨0, 0, 0⟩ = ⟨0, 0, 0⟩ := by
  simp [vsmul]

theorem vadd_zero3 (a : Vec3) : vadd a ⟨0, 0, 0⟩ = a := by
  cases a
  simp [vadd]

theorem vadd_vsub3 (a b : Vec3) : vadd b (vsub a b) = a := by
  cases a
  cases b
  simp only [vadd, vsub, Vec3.mk.injEq]
  refine ⟨?_, ?_, ?_⟩ <;> ring

theorem sph_eta (s : Sph) : (⟨s.radius, s.phi, s.theta⟩ : Sph) = s := rfl

/-- An `update` with nothing pending and the default limits leaves the
camera position unchanged, provided the offset is nonzero and its polar
angle lies in the `makeSafe` band. -/
theorem update_keeps_position (c : Controls)
    (hup : c.object.up = ⟨0, 1, 0⟩)
    (hδ : c.sphericalDelta = ⟨0, 0, 0⟩)
    (hpan : c.panOffset = ⟨0, 0, 0⟩)
    (hscale : c.scale = 1)
    (hauto : c.autoRotate = false)
    (hminD : c.minDistance = 0) (hmaxD : c.maxDistance = none)
    (hminP : c.minPolarAngle = 0) (hmaxP : c.maxPolarAngle = Real.pi)
    (hminA : c.minAzimuthAngle = none) (hmaxA : c.maxAzimuthAngle = none)
    (hr : vlength (vsub c.object.position c.target) ≠ 0)
    (hphi1 : makeSafeEPS ≤ (sphFromVec3 (vsub c.object.position c.target)).phi)
    (hphi2 : (sphFromVec3 (vsub c.object.position c.target)).phi ≤
      Real.pi - makeSafeEPS) :
    (update c).1.object.position = c.object.position := by
  have hv' : Real.sqrt ((vsub c.object.position c.target).x *
      (vsub c.object.position c.target).x +
      (vsub c.object.position c.target).y * (vsub c.object.position c.target).y +
      (vsub c.object.position c.target).z * (vsub c.object.position c.target).z) ≠ 0 :=
    hr
  have hq : quatFromUnitVectors c.object.up ⟨0, 1, 0⟩ = ⟨0, 0, 0, 1⟩ := by
    rw [hup]; exact quatY
  have hmem := sphFromVec3_phi_mem (vsub c.object.position c.target) hv'
  simp only [update, hq, qconj_id, vapplyQuat_id, hδ, hpan, hscale, hauto,
    hminD, hmaxD, hminP, hmaxP, hminA, hmaxA, azimuthStep, vsmul_zero3,
    vadd_zero3, clampOpt, zero_mul, add_zero, mul_zero, mul_one, ite_self,
    Bool.false_eq_true, false_and, if_false]
  rw [max_eq_right (sphFromVec3_radius_nonneg _),
      min_eq_right hmem.2, max_eq_right hmem.1]
  rw [show makeSafePhi (sphFromVec3 (vsub c.object.position c.target)).phi =
      (sphFromVec3 (vsub c.object.position c.target)).phi by
    unfold makeSafePhi
    rw [min_eq_right hphi2, max_eq_right hphi1]]
  rw [sph_eta, sph_roundtrip _ hr, vadd_vsub3]

end

end Orbit

namespace Orbit

noncomputable section

open Real

theorem update_keeps_target (c : Controls) (hpan : c.panOffset = ⟨0, 0, 0⟩) :
    (update c).1.target = c.target := by
  simp only [update, hpan, vsmul_zero3, vadd_zero3, ite_self]

/-- C5 amended: `reset` always restores the saved zoom; it restores the
saved target and camera position exactly when nothing is pending at reset
time (`sphericalDelta`, `panOffset` zero, `scale` 1, auto-rotate off) and
the saved geometry is inside the default limits, with a nonzero saved
offset whose polar angle lies inside the `makeSafe` band — because `reset`
runs `update` after restoring the fields, any still-pending (damped) delta
or out-of-band saved geometry moves the camera off the saved position. -/
theorem c5_amended_reset_restores (c : Controls)
    (hup : c.object.up = ⟨0, 1, 0⟩)
    (hδ : c.sphericalDelta = ⟨0, 0, 0⟩)
    (hpan : c.panOffset = ⟨0, 0, 0⟩)
    (hscale : c.scale = 1)
    (hauto : c.autoRotate = false)
    (hminD : c.minDistance = 0) (hmaxD : c.maxDistance = none)
    (hminP : c.minPolarAngle = 0) (hmaxP : c.maxPolarAngle = Real.pi)
    (hminA : c.minAzimuthAngle = none) (hmaxA : c.maxAzimuthAngle = none)
    (hr : vlength (vsub c.position0 c.target0) ≠ 0)
    (hphi1 : makeSafeEPS ≤ (sphFromVec3 (vsub c.position0 c.target0)).phi)
    (hphi2 : (sphFromVec3 (vsub c.position0 c.target0)).phi ≤
      Real.pi - makeSafeEPS) :
    (reset c).1.target = c.target0 ∧
    (reset c).1.object.zoom = c.zoom0 ∧
    (reset c).1.object.position = c.position0 := by
  refine ⟨?_, rfl, ?_⟩
  · exact update_keeps_target _ hpan
  · exact update_keeps_position _ hup hδ hpan hscale hauto hminD hmaxD hminP
      hmaxP hminA hmaxA hr hphi1 hphi2

/-- Closed witness for `c5_amended_reset_restores` at the application
state. -/
theorem c5_amended_reset_restores_witness :
    (base.sphericalDelta = ⟨0, 0, 0⟩ ∧ base.panOffset = ⟨0, 0, 0⟩ ∧
     vlength (vsub base.position0 base.target0) ≠ 0 ∧
     makeSafeEPS ≤ (sphFromVec3 (vsub base.position0 base.target0)).phi ∧
     (sphFromVec3 (vsub base.position0 base.target0)).phi ≤
       Real.pi - makeSafeEPS) ∧
    ((reset base).1.target = base.target0 ∧
     (reset base).1.object.zoom = base.zoom0 ∧
     (reset base).1.object.position = base.position0) := by
  have hvs : vsub base.position0 base.target0 = ⟨0, 0, 5⟩ := by
    norm_num [vsub, base]
  have hr : vlength (vsub base.position0 base.target0) ≠ 0 := by
    rw [hvs]
    norm_num [vlength, sqrt_25]
  have hphi : (sphFromVec3 (vsub base.position0 base.target0)).phi =
      Real.pi / 2 := by
    rw [hvs, sph_z5]
  have h3 := Real.pi_gt_three
  have hphi1 : makeSafeEPS ≤ (sphFromVec3 (vsub base.position0 base.target0)).phi := by
    rw [hphi, makeSafeEPS]; norm_num; linarith
  have hphi2 : (sphFromVec3 (vsub base.position0 base.target0)).phi ≤
      Real.pi - makeSafeEPS := by
    rw [hphi, makeSafeEPS]; norm_num; linarith
  exact ⟨⟨rfl, rfl, hr, hphi1, hphi2⟩,
    c5_amended_reset_restores base rfl rfl rfl rfl rfl rfl rfl rfl rfl rfl rfl
      hr hphi1 hphi2⟩

end

end Orbit
